import Mathlib

set_option autoImplicit false

namespace EternaBackend

/-! Shallow embedding of the Eterna-Backend order-execution core.

Sources embedded here:
* src/src/types/order.ts — the order data model;
* src/src/config/redis.ts — the execution worker (orderWorker) and
  updateOrderStatus, which parses the stored statusHistory string,
  appends one transition entry and writes status + history in a single
  prisma.order.update, then broadcasts;
* src/unnamed/part_004 (MockDexRouter.ts) — getBestQuote selection;
* src/unnamed/part_005 (orderController.ts) — executeOrder validation and
  order creation;
* src/src/queue/orderQueue.ts — addOrderToQueue (BullMQ enqueue with
  jobId = orderId);
* src/src/websocket/WebSocketManager.test.ts lines 232-333 — the
  WebSocketManager class (registry, subscriptions, broadcast).

Timestamps (new Date().toISOString()) are modelled as natural numbers
supplied by a monotone clock; JSON strings holding the status history are
modelled by the StoredHistory type, which records the outcome of
JSON.parse on the stored column. -/

/-- The six lifecycle states from src/src/types/order.ts. -/
inductive OrderStatus where
  | pending
  | routing
  | building
  | submitted
  | confirmed
  | failed
deriving DecidableEq

/-- The optional-field update object passed to updateOrderStatus
(src/src/config/redis.ts lines 133-138); it is also stored verbatim as the
metadata of the appended history entry. -/
structure StatusUpdates where
  dexUsed : Option String := none
  executedPrice : Option String := none
  txHash : Option String := none
  failureReason : Option String := none
deriving DecidableEq

/-- One statusHistory entry: {status, timestamp, metadata}
(src/src/config/redis.ts lines 168-172). -/
structure StatusEntry where
  status : OrderStatus
  timestamp : Nat
  metadata : StatusUpdates
deriving DecidableEq

/-- The stored statusHistory column (a string in SQLite), classified by what
JSON.parse does with it: a falsy value, a string JSON.parse throws on, valid
JSON that is not an array, or a JSON array of entries. -/
inductive StoredHistory where
  | absent
  | malformed
  | nonArray
  | arr (entries : List StatusEntry)
deriving DecidableEq

/-- The parse of the stored history performed by updateOrderStatus
(src/src/config/redis.ts lines 148-165): a missing value, a parse error or a
non-array parse all reset the working array to []. -/
def parseStatusHistory : StoredHistory → List StatusEntry
  | .arr entries => entries
  | _ => []

/-- One persisted order row (the prisma Order model). -/
structure OrderRow where
  id : String
  tokenIn : String
  tokenOut : String
  amountIn : String
  status : OrderStatus
  statusHistory : StoredHistory
  dexUsed : Option String
  executedPrice : Option String
  txHash : Option String
  failureReason : Option String
  createdAt : Nat
  updatedAt : Nat
deriving DecidableEq

/-- The parsed order snapshot sent over the wire
(OrderState in src/src/types/order.ts). -/
structure OrderState where
  id : String
  tokenIn : String
  tokenOut : String
  amountIn : String
  dexUsed : Option String
  executedPrice : Option String
  txHash : Option String
  status : OrderStatus
  statusHistory : List StatusEntry
  failureReason : Option String
  createdAt : Nat
  updatedAt : Nat
deriving DecidableEq

/-- The status_update wire message (WebSocketMessage in
src/src/types/order.ts). -/
structure WsMessage where
  type : String
  orderId : String
  status : OrderStatus
  order : OrderState
  timestamp : Nat
deriving DecidableEq

/-- One transport connection as the hub observes it: readyState, whether a
send throws, and the messages delivered so far. -/
structure Conn where
  isOpen : Bool
  sendFails : Bool
  inbox : List WsMessage
deriving DecidableEq

/-- The WebSocketManager registries (src/src/websocket/WebSocketManager.test.ts
lines 239-241): clients is a Map of clientId to socket, orderClients a Map of
orderId to a Set of clientIds; both are modelled as insertion-ordered
association lists. -/
structure WebSocketManager where
  clients : List (String × Conn)
  orderClients : List (String × List String)
deriving DecidableEq

/-- Map.get on an association list. -/
def mapGet {α : Type} (m : List (String × α)) (k : String) : Option α :=
  (m.find? (fun p => p.1 == k)).map Prod.snd

/-- Map.set on an association list: replace the binding if the key is
present, append otherwise. -/
def mapSet {α : Type} (m : List (String × α)) (k : String) (v : α) :
    List (String × α) :=
  if m.any (fun p => p.1 == k) then
    m.map (fun p => if p.1 == k then (k, v) else p)
  else
    m ++ [(k, v)]

/-- Map.delete on an association list. -/
def mapDelete {α : Type} (m : List (String × α)) (k : String) :
    List (String × α) :=
  m.filter (fun p => !(p.1 == k))

/-- Set.add on an insertion-ordered list of ids. -/
def setAdd (s : List String) (x : String) : List String :=
  if s.contains x then s else s ++ [x]

/-- Set.delete on an insertion-ordered list of ids. -/
def setDelete (s : List String) (x : String) : List String :=
  s.filter (fun y => !(y == x))

/-- WebSocketManager.registerClient (lines 246-258): adds the connection to
the registry (the close/error handlers it installs call unregisterClient and
are modelled by applying unregisterClient when the transport closes). -/
def registerClient (m : WebSocketManager) (clientId : String) (ws : Conn) :
    WebSocketManager :=
  { m with clients := mapSet m.clients clientId ws }

/-- WebSocketManager.subscribeToOrder (lines 263-269): ensures a subscriber
set exists for the order and adds the client to it. -/
def subscribeToOrder (m : WebSocketManager) (clientId orderId : String) :
    WebSocketManager :=
  { m with
    orderClients :=
      mapSet m.orderClients orderId
        (setAdd ((mapGet m.orderClients orderId).getD []) clientId) }

/-- WebSocketManager.unregisterClient (lines 274-286): deletes the client
from the registry, removes it from every order subscriber set, and drops
sets that become empty. -/
def unregisterClient (m : WebSocketManager) (clientId : String) :
    WebSocketManager :=
  { clients := mapDelete m.clients clientId,
    orderClients :=
      (m.orderClients.map (fun p => (p.1, setDelete p.2 clientId))).filter
        (fun p => !p.2.isEmpty) }

/-- The status_update message built by broadcastOrderUpdate
(lines 292-298). -/
def mkStatusMessage (order : OrderState) (now : Nat) : WsMessage :=
  { type := "status_update"
    orderId := order.id
    status := order.status
    order := order
    timestamp := now }

/-- The subscriber set resolved by broadcastOrderUpdate (line 300):
this.orderClients.get(order.id) || new Set(). -/
def subscribersOf (m : WebSocketManager) (orderId : String) : List String :=
  (mapGet m.orderClients orderId).getD []

/-- The body of the broadcast loop (lines 303-318) for one subscriber id: an
open connection receives the message unless its send throws; a throwing
send, a closed connection or a missing registry entry each cause
unregisterClient. -/
def sendTo (msg : WsMessage) (m : WebSocketManager) (clientId : String) :
    WebSocketManager :=
  match mapGet m.clients clientId with
  | some conn =>
    if conn.isOpen then
      if conn.sendFails then
        unregisterClient m clientId
      else
        { m with
          clients :=
            mapSet m.clients clientId
              { conn with inbox := conn.inbox ++ [msg] } }
    else
      unregisterClient m clientId
  | none => unregisterClient m clientId

/-- WebSocketManager.broadcastOrderUpdate (lines 291-321): builds the
message, resolves the subscriber set for the order id, and runs the send
loop over it. -/
def broadcastOrderUpdate (m : WebSocketManager) (order : OrderState)
    (now : Nat) : WebSocketManager :=
  (subscribersOf m order.id).foldl (sendTo (mkStatusMessage order now)) m

/-- JavaScript's nullish coalescing a ?? b, as used in the update payload of
updateOrderStatus (src/src/config/redis.ts lines 182-185). -/
def coalesce {α : Type} (a b : Option α) : Option α :=
  match a with
  | some v => some v
  | none => b

/-- The order table, modelled as the list of rows. -/
abbrev Db := List OrderRow

/-- prisma.order.findUnique by id. -/
def dbFind (db : Db) (orderId : String) : Option OrderRow :=
  db.find? (fun o => o.id == orderId)

/-- prisma.order.update by id: replaces the matching row. -/
def dbUpdate (db : Db) (orderId : String) (row : OrderRow) : Db :=
  db.map (fun o => if o.id == orderId then row else o)

/-- The row written by the single prisma.order.update inside
updateOrderStatus (src/src/config/redis.ts lines 177-188): the new status,
the re-serialized history with the one appended transition, each scalar
field nullish-coalesced with its previous value, and a fresh updatedAt. -/
def applyStatusUpdate (o : OrderRow) (status : OrderStatus)
    (updates : StatusUpdates) (now : Nat) : OrderRow :=
  { o with
    status := status
    statusHistory :=
      .arr (parseStatusHistory o.statusHistory ++
        [{ status := status, timestamp := now, metadata := updates }])
    dexUsed := coalesce updates.dexUsed o.dexUsed
    executedPrice := coalesce updates.executedPrice o.executedPrice
    txHash := coalesce updates.txHash o.txHash
    failureReason := coalesce updates.failureReason o.failureReason
    updatedAt := now }

/-- The snapshot handed to wsManager.broadcastOrderUpdate
(src/src/config/redis.ts lines 191-204): the updated row with the parsed
history array. -/
def orderWsView (o : OrderRow) : OrderState :=
  { id := o.id
    tokenIn := o.tokenIn
    tokenOut := o.tokenOut
    amountIn := o.amountIn
    dexUsed := o.dexUsed
    executedPrice := o.executedPrice
    txHash := o.txHash
    status := o.status
    statusHistory := parseStatusHistory o.statusHistory
    failureReason := o.failureReason
    createdAt := o.createdAt
    updatedAt := o.updatedAt }

/-- updateOrderStatus (src/src/config/redis.ts lines 130-205): looks the
order up, throws if absent, parses the stored history, appends one entry,
writes status and history together in one update, and broadcasts the
updated snapshot. -/
def updateOrderStatus (db : Db) (hub : WebSocketManager) (orderId : String)
    (status : OrderStatus) (updates : StatusUpdates) (now : Nat) :
    Except String (Db × WebSocketManager) :=
  match dbFind db orderId with
  | none => .error ("Order " ++ orderId ++ " not found")
  | some o =>
    let o' := applyStatusUpdate o status updates now
    .ok (dbUpdate db orderId o', broadcastOrderUpdate hub (orderWsView o') now)

/-- A DEX quote (DexQuote in src/src/types/order.ts); amountOut is the
parseFloat-parsed numeric value of the quote's decimal string, since
getBestQuote compares quotes via parseFloat. -/
structure DexQuote where
  dex : String
  price : String
  amountOut : ℚ
  estimatedGas : Option String
deriving DecidableEq

/-- MockDexRouter.getBestQuote (src/unnamed/part_004 lines 77-102): the
concurrent Promise.all fan-out is modelled by passing the two resolved
quotes (Raydium first, Meteora second); the selection keeps Raydium only
when its amountOut is strictly greater. -/
def getBestQuote (raydiumQuote meteoraQuote : DexQuote) : DexQuote :=
  if raydiumQuote.amountOut > meteoraQuote.amountOut then raydiumQuote
  else meteoraQuote

/-- Job payload (OrderJobData in src/src/types/order.ts). -/
structure OrderJobData where
  orderId : String
  tokenIn : String
  tokenOut : String
  amountIn : String
  wsClientId : Option String
deriving DecidableEq

/-- BullMQ job states relevant to the dispatcher contract. -/
inductive JobState where
  | waiting
  | active
  | completed
  | failed
deriving DecidableEq

/-- A queued job: its id, payload and state. -/
structure QueueJob where
  id : String
  data : OrderJobData
  state : JobState
deriving DecidableEq

/-- Whether a job is still waiting or active (not yet settled). -/
def jobLive (j : QueueJob) : Bool :=
  match j.state with
  | .waiting => true
  | .active => true
  | _ => false

/-- Modelled from the spec: the bullmq library's Queue.add with an explicit
jobId is not part of this repository; per the spec the enqueue is
idempotent, returning the existing job when one with the same id is already
waiting or active and otherwise creating a new job in waiting state. -/
def queueAdd (q : List QueueJob) (data : OrderJobData) (jobId : String) :
    List QueueJob × QueueJob :=
  match q.find? (fun j => j.id == jobId && jobLive j) with
  | some j => (q, j)
  | none =>
    let j : QueueJob := { id := jobId, data := data, state := .waiting }
    (q ++ [j], j)

/-- addOrderToQueue (src/src/queue/orderQueue.ts lines 36-43): adds the job
using the orderId as the jobId to prevent duplicates. -/
def addOrderToQueue (q : List QueueJob) (jobData : OrderJobData) :
    List QueueJob × QueueJob :=
  queueAdd q jobData jobData.orderId

/-- A submitted request body (OrderRequest in src/src/types/order.ts). -/
structure OrderRequestIn where
  tokenIn : String
  tokenOut : String
  amountIn : String
  orderType : Option String
deriving DecidableEq

/-- The zod regex for amountIn in src/unnamed/part_005 line 15, one or more
digits optionally followed by a dot and one or more digits. -/
def amountInRegexOk (s : String) : Bool :=
  match s.splitOn "." with
  | [a] => !a.isEmpty && a.all Char.isDigit
  | [a, b] => !a.isEmpty && a.all Char.isDigit && !b.isEmpty && b.all Char.isDigit
  | _ => false

/-- The numeric value of a digit string. -/
def digitsToNat (s : String) : Nat :=
  s.foldl (fun acc c => acc * 10 + (c.toNat - 48)) 0

/-- Parse of a plain non-negative decimal literal, the reading of amountIn
the spec requires; strings with signs, exponents or stray characters do not
parse. -/
def parseDecimal (s : String) : Option ℚ :=
  match s.splitOn "." with
  | [a] =>
    if !a.isEmpty && a.all Char.isDigit then some (digitsToNat a : ℚ)
    else none
  | [a, b] =>
    if !a.isEmpty && a.all Char.isDigit && !b.isEmpty && b.all Char.isDigit then
      some ((digitsToNat a : ℚ) + (digitsToNat b : ℚ) / ((10 : ℚ) ^ b.length))
    else none
  | _ => none

/-- The zod validation of src/unnamed/part_005 lines 12-17: non-empty
tokenIn and tokenOut, amountIn matching the decimal regex, and orderType
either absent (defaulted to market) or the literal "market". -/
def validOrderRequest (r : OrderRequestIn) : Bool :=
  decide (1 ≤ r.tokenIn.length) && decide (1 ≤ r.tokenOut.length) &&
    amountInRegexOk r.amountIn &&
    (match r.orderType with
     | none => true
     | some t => t == "market")

/-- The single-element history written at creation
(src/unnamed/part_005 lines 62-68). -/
def initialStatusHistory (t : Nat) : List StatusEntry :=
  [{ status := .pending, timestamp := t, metadata := {} }]

/-- The row created by executeOrder (src/unnamed/part_005 lines 70-79):
status pending and the single-element serialized history. -/
def createOrderRow (orderId tokenIn tokenOut amountIn : String) (t : Nat) :
    OrderRow :=
  { id := orderId
    tokenIn := tokenIn
    tokenOut := tokenOut
    amountIn := amountIn
    status := .pending
    statusHistory := .arr (initialStatusHistory t)
    dexUsed := none
    executedPrice := none
    txHash := none
    failureReason := none
    createdAt := t
    updatedAt := t }

/-- The order-facing application state the controller touches: the order
table and the execution queue. -/
structure AppState where
  db : Db
  queue : List QueueJob
deriving DecidableEq

/-- The HTTP-level reply of executeOrder. -/
structure OrderResponse where
  orderId : String
  status : OrderStatus
  tokenIn : String
  tokenOut : String
  amountIn : String
  createdAt : Nat
deriving DecidableEq

/-- Outcome of executeOrder: a 400 validation rejection or a 201 created
response. -/
inductive ExecuteOrderResult where
  | validationError
  | created (resp : OrderResponse)
deriving DecidableEq

/-- executeOrder (src/unnamed/part_005 lines 33-101): validates the body
with the zod schema and replies 400 before any row or job is created;
otherwise creates the pending order row, enqueues the job and replies 201.
The fresh uuid and the clock are passed in explicitly. -/
def executeOrder (st : AppState) (req : OrderRequestIn) (newId : String)
    (now : Nat) : AppState × ExecuteOrderResult :=
  if validOrderRequest req then
    let order := createOrderRow newId req.tokenIn req.tokenOut req.amountIn now
    let enq := addOrderToQueue st.queue
      { orderId := newId, tokenIn := req.tokenIn, tokenOut := req.tokenOut,
        amountIn := req.amountIn, wsClientId := none }
    ({ db := st.db ++ [order], queue := enq.1 },
      .created
        { orderId := order.id, status := order.status,
          tokenIn := order.tokenIn, tokenOut := order.tokenOut,
          amountIn := order.amountIn, createdAt := order.createdAt })
  else
    (st, .validationError)

instance exceptDecEq {ε α : Type} [DecidableEq ε] [DecidableEq α] :
    DecidableEq (Except ε α) := fun x y =>
  match x, y with
  | .ok a, .ok b =>
    if h : a = b then .isTrue (by rw [h])
    else .isFalse (fun hc => h (Except.ok.inj hc))
  | .error a, .error b =>
    if h : a = b then .isTrue (by rw [h])
    else .isFalse (fun hc => h (Except.error.inj hc))
  | .ok _, .error _ => .isFalse (fun hc => Except.noConfusion hc)
  | .error _, .ok _ => .isFalse (fun hc => Except.noConfusion hc)

/-- The outcomes of the two fallible external calls a worker attempt makes:
dexRouter.getBestQuote and dexRouter.executeSwap; an error value carries the
rejection's message. -/
structure WorkerEnv where
  quote : Except String DexQuote
  swap : Except String String
deriving DecidableEq

/-- How one worker attempt ends: the job handler returns successfully with
the transaction hash, or it throws (after the catch block ran) and BullMQ
sees a failed attempt. -/
inductive AttemptResult where
  | completed (txHash : String)
  | failedAttempt (msg : String)
deriving DecidableEq

/-- The catch block of the worker (src/src/config/redis.ts lines 105-115):
writes the failed transition with the failure reason and rethrows; when that
write itself throws (order not found), its error propagates instead and the
store is left as it was. -/
def workerCatch (db : Db) (hub : WebSocketManager) (orderId msg : String)
    (t : Nat) : (Db × WebSocketManager) × AttemptResult :=
  match updateOrderStatus db hub orderId .failed { failureReason := some msg } t with
  | .ok s => (s, .failedAttempt msg)
  | .error e => ((db, hub), .failedAttempt e)

/-- One activation of the orderWorker handler (src/src/config/redis.ts
lines 53-116): routing, quote, building, submitted, swap, confirmed, with
every thrown error routed through the catch block. The monotone clock
advances by one per transition; the demo delays do not touch state. -/
def runAttempt (db : Db) (hub : WebSocketManager) (job : OrderJobData)
    (env : WorkerEnv) (t : Nat) : (Db × WebSocketManager) × AttemptResult :=
  match updateOrderStatus db hub job.orderId .routing {} t with
  | .error e => workerCatch db hub job.orderId e (t + 1)
  | .ok (db1, hub1) =>
    match env.quote with
    | .error e => workerCatch db1 hub1 job.orderId e (t + 1)
    | .ok q =>
      match updateOrderStatus db1 hub1 job.orderId .building
          { dexUsed := some q.dex, executedPrice := some q.price } (t + 1) with
      | .error e => workerCatch db1 hub1 job.orderId e (t + 2)
      | .ok (db2, hub2) =>
        match updateOrderStatus db2 hub2 job.orderId .submitted
            { dexUsed := some q.dex, executedPrice := some q.price } (t + 2) with
        | .error e => workerCatch db2 hub2 job.orderId e (t + 3)
        | .ok (db3, hub3) =>
          match env.swap with
          | .error e => workerCatch db3 hub3 job.orderId e (t + 3)
          | .ok txHash =>
            match updateOrderStatus db3 hub3 job.orderId .confirmed
                { dexUsed := some q.dex, executedPrice := some q.price,
                  txHash := some txHash } (t + 3) with
            | .error e => workerCatch db3 hub3 job.orderId e (t + 4)
            | .ok s => (s, .completed txHash)

/-- The dispatcher's retry loop around the handler: each failed attempt is
re-activated with the next environment until the handler returns or the
attempts (default 3) are exhausted; every retry restarts the handler from
the routing step. The clock advances past the previous attempt's ticks. -/
def runAttempts (db : Db) (hub : WebSocketManager) (job : OrderJobData)
    (envs : List WorkerEnv) (t : Nat) : Db × WebSocketManager :=
  match envs with
  | [] => (db, hub)
  | env :: rest =>
    match runAttempt db hub job env t with
    | (s, .completed _) => s
    | ((db', hub'), .failedAttempt _) => runAttempts db' hub' job rest (t + 5)

/-- True when the attempt's environment makes the handler throw: the quote
or the swap call rejects. -/
def envFails (env : WorkerEnv) : Bool :=
  (match env.quote with | .error _ => true | .ok _ => false) ||
    (match env.swap with | .error _ => true | .ok _ => false)

/-- True when every rejection message in the environment is non-empty, as a
real Error message is. -/
def envMsgsOk (env : WorkerEnv) : Bool :=
  (match env.quote with | .error e => !e.isEmpty | .ok _ => true) &&
    (match env.swap with | .error e => !e.isEmpty | .ok _ => true)

/-! Concrete sample data used to instantiate the theorems. -/

/-- An empty hub. -/
def emptyHub : WebSocketManager := { clients := [], orderClients := [] }

/-- A freshly created sample order. -/
def sampleRow : OrderRow := createOrderRow "order-1" "SOL" "USDC" "100" 0

/-- A sample order that has reached the terminal confirmed state. -/
def confirmedRow : OrderRow :=
  { id := "order-1"
    tokenIn := "SOL"
    tokenOut := "USDC"
    amountIn := "100"
    status := .confirmed
    statusHistory := .arr
      [{ status := .pending, timestamp := 0, metadata := {} },
       { status := .confirmed, timestamp := 4,
         metadata := { txHash := some "0xabc" } }]
    dexUsed := some "raydium"
    executedPrice := some "101"
    txHash := some "0xabc"
    failureReason := none
    createdAt := 0
    updatedAt := 4 }

/-- A sample order whose stored history string does not parse. -/
def malformedRow : OrderRow :=
  { sampleRow with statusHistory := .malformed }

/-- A sample Raydium quote offering 105 out. -/
def raydium105 : DexQuote :=
  { dex := "raydium", price := "105", amountOut := 105,
    estimatedGas := some "50000" }

/-- A sample Meteora quote offering 110 out. -/
def meteora110 : DexQuote :=
  { dex := "meteora", price := "110", amountOut := 110,
    estimatedGas := some "45000" }

/-- A Raydium quote tying Meteora at 110. -/
def raydium110 : DexQuote :=
  { dex := "raydium", price := "110", amountOut := 110,
    estimatedGas := some "50000" }

/-! Helper lemmas. -/

theorem updateOrderStatus_found (o : OrderRow) (hub : WebSocketManager)
    (oid : String) (st : OrderStatus) (up : StatusUpdates) (now : Nat)
    (h : o.id = oid) :
    updateOrderStatus [o] hub oid st up now =
      .ok ([applyStatusUpdate o st up now],
        broadcastOrderUpdate hub (orderWsView (applyStatusUpdate o st up now)) now) := by
  subst h
  simp [updateOrderStatus, dbFind, dbUpdate, List.find?]

theorem parseStatusHistory_applyStatusUpdate (o : OrderRow)
    (st : OrderStatus) (up : StatusUpdates) (now : Nat) :
    parseStatusHistory (applyStatusUpdate o st up now).statusHistory =
      parseStatusHistory o.statusHistory ++
        [{ status := st, timestamp := now, metadata := up }] := by
  simp [applyStatusUpdate, parseStatusHistory]

/-! Claim theorems. -/

/-- C1: every transition performed by updateOrderStatus on an order whose
stored history is a well-formed array appends exactly one entry carrying the
new status, writes the new status and the extended history in the same
single row update, and afterwards the last history entry's status equals
the order's current status. -/
theorem c1_history_append_atomic (o : OrderRow) (hub : WebSocketManager)
    (st : OrderStatus) (up : StatusUpdates) (now : Nat)
    (es : List StatusEntry) (h : o.statusHistory = .arr es) :
    updateOrderStatus [o] hub o.id st up now =
      .ok ([applyStatusUpdate o st up now],
        broadcastOrderUpdate hub (orderWsView (applyStatusUpdate o st up now)) now)
    ∧ (applyStatusUpdate o st up now).statusHistory =
        .arr (es ++ [{ status := st, timestamp := now, metadata := up }])
    ∧ (applyStatusUpdate o st up now).status = st
    ∧ (parseStatusHistory (applyStatusUpdate o st up now).statusHistory).getLast?.map
        StatusEntry.status = some (applyStatusUpdate o st up now).status := by
  refine ⟨updateOrderStatus_found o hub o.id st up now rfl, ?_, rfl, ?_⟩
  · simp [applyStatusUpdate, parseStatusHistory, h]
  · simp [parseStatusHistory_applyStatusUpdate, List.getLast?_concat]
    rfl

/-- C1 witness: the theorem applied to a freshly created sample order. -/
theorem c1_history_append_atomic_witness :
    (applyStatusUpdate sampleRow .routing {} 5).statusHistory =
      .arr (initialStatusHistory 0 ++
        [{ status := .routing, timestamp := 5, metadata := {} }]) :=
  (c1_history_append_atomic sampleRow emptyHub .routing {} 5
    (initialStatusHistory 0) rfl).2.1

/-- C2 counterexample: updateOrderStatus applied to an order already in the
terminal confirmed state does not raise an error; it succeeds, overwrites
the status with routing and extends the history, so the claimed
invalid-transition rejection does not exist in the code. -/
theorem c2_counterexample :
    confirmedRow.status = .confirmed
  ∧ updateOrderStatus [confirmedRow] emptyHub "order-1" .routing {} 9 =
      .ok ([applyStatusUpdate confirmedRow .routing {} 9], emptyHub)
  ∧ (applyStatusUpdate confirmedRow .routing {} 9).status = .routing
  ∧ (applyStatusUpdate confirmedRow .routing {} 9).statusHistory ≠
      confirmedRow.statusHistory := by
  refine ⟨rfl, ?_, rfl, by decide⟩
  rfl

/-- C2 (amended): updateOrderStatus performs no transition validation at
all; for any current state, terminal states included, and any requested
state it succeeds, overwrites the order's status and appends one history
entry. Only a missing order id raises an error. -/
theorem c2_amended_no_validation (o : OrderRow) (hub : WebSocketManager)
    (st : OrderStatus) (up : StatusUpdates) (now : Nat) :
    updateOrderStatus [o] hub o.id st up now =
      .ok ([applyStatusUpdate o st up now],
        broadcastOrderUpdate hub (orderWsView (applyStatusUpdate o st up now)) now)
    ∧ (applyStatusUpdate o st up now).status = st
    ∧ parseStatusHistory (applyStatusUpdate o st up now).statusHistory =
        parseStatusHistory o.statusHistory ++
          [{ status := st, timestamp := now, metadata := up }] :=
  ⟨updateOrderStatus_found o hub o.id st up now rfl, rfl,
    parseStatusHistory_applyStatusUpdate o st up now⟩

/-- C10: when the stored statusHistory fails to parse as a JSON array,
updateOrderStatus raises no error and persists a history consisting of only
the single new transition entry, discarding the previous audit trail. -/
theorem c10_malformed_history_reset (o : OrderRow) (hub : WebSocketManager)
    (st : OrderStatus) (up : StatusUpdates) (now : Nat)
    (h : o.statusHistory = .malformed ∨ o.statusHistory = .nonArray) :
    updateOrderStatus [o] hub o.id st up now =
      .ok ([applyStatusUpdate o st up now],
        broadcastOrderUpdate hub (orderWsView (applyStatusUpdate o st up now)) now)
    ∧ (applyStatusUpdate o st up now).statusHistory =
        .arr [{ status := st, timestamp := now, metadata := up }] := by
  refine ⟨updateOrderStatus_found o hub o.id st up now rfl, ?_⟩
  rcases h with h | h <;> simp [applyStatusUpdate, parseStatusHistory, h]

/-- C10 witness: the theorem applied to a sample order with an unparsable
stored history. -/
theorem c10_malformed_history_reset_witness :
    (applyStatusUpdate malformedRow .routing {} 5).statusHistory =
      .arr [{ status := .routing, timestamp := 5, metadata := {} }] :=
  (c10_malformed_history_reset malformedRow emptyHub .routing {} 5
    (Or.inl rfl)).2

/-- C3 counterexample: on a tie in amountOut, getBestQuote returns the
second-registered source's quote (Meteora), not the first-registered
(Raydium) as the claim states. -/
theorem c3_counterexample :
    raydium110.amountOut = meteora110.amountOut
  ∧ getBestQuote raydium110 meteora110 = meteora110
  ∧ (getBestQuote raydium110 meteora110).dex ≠ "raydium" := by
  refine ⟨by decide, ?_, by decide⟩
  decide

/-- C3 (amended): getBestQuote returns the quote whose amountOut is
greatest; a strictly greater Raydium amountOut wins, but on a tie the
Meteora quote (second-registered source) is returned, not the Raydium
one. -/
theorem c3_amended_best_quote (r m : DexQuote) :
    (getBestQuote r m).amountOut = max r.amountOut m.amountOut
  ∧ (m.amountOut < r.amountOut → getBestQuote r m = r)
  ∧ (r.amountOut ≤ m.amountOut → getBestQuote r m = m) := by
  unfold getBestQuote
  rcases le_or_lt r.amountOut m.amountOut with h | h
  · rw [if_neg (not_lt.mpr h)]
    exact ⟨(max_eq_right h).symm, fun h' => absurd h' (not_lt.mpr h),
      fun _ => rfl⟩
  · rw [if_pos h]
    exact ⟨(max_eq_left (le_of_lt h)).symm, fun _ => rfl,
      fun h' => absurd h (not_lt.mpr h')⟩

/-- C3 witness: with Raydium offering 105 and Meteora 110, the strictly
greater Meteora quote is selected. -/
theorem c3_amended_best_quote_witness :
    getBestQuote raydium105 meteora110 = meteora110 :=
  (c3_amended_best_quote raydium105 meteora110).2.2 (by decide)

theorem find?_append_none {α : Type} (p : α → Bool) {l1 : List α}
    (l2 : List α) (h : l1.find? p = none) :
    (l1 ++ l2).find? p = l2.find? p := by
  induction l1 with
  | nil => simp
  | cons a l ih =>
    cases hpa : p a with
    | true => simp [List.find?_cons, hpa] at h
    | false =>
      simp only [List.find?_cons, hpa, cond_false] at h
      simpa [List.find?_cons, hpa] using ih h

/-- C6: enqueuing the same orderId twice while the first job is still
waiting or active returns the same underlying job, whose id is the orderId,
and leaves the queue unchanged (no duplicate job). -/
theorem c6_enqueue_idempotent (q : List QueueJob) (jd : OrderJobData) :
    (addOrderToQueue (addOrderToQueue q jd).1 jd).1 = (addOrderToQueue q jd).1
  ∧ (addOrderToQueue (addOrderToQueue q jd).1 jd).2 = (addOrderToQueue q jd).2
  ∧ (addOrderToQueue q jd).2.id = jd.orderId := by
  cases hf : q.find? (fun j => j.id == jd.orderId && jobLive j) with
  | some j =>
    have hp := List.find?_some hf
    have hid : j.id = jd.orderId := by
      simp only [Bool.and_eq_true, beq_iff_eq] at hp
      exact hp.1
    refine ⟨?_, ?_, ?_⟩ <;> simp [addOrderToQueue, queueAdd, hf, hid]
  | none =>
    have h2 : List.find? (fun j => j.id == jd.orderId && jobLive j)
        (q ++ [({ id := jd.orderId, data := jd, state := .waiting } : QueueJob)]) =
        some ({ id := jd.orderId, data := jd, state := .waiting } : QueueJob) := by
      rw [find?_append_none _ _ hf]
      simp [List.find?_cons, jobLive]
    refine ⟨?_, ?_, ?_⟩ <;> simp [addOrderToQueue, queueAdd, hf, h2]

theorem amountInRegexOk_eq_isSome (s : String) :
    amountInRegexOk s = (parseDecimal s).isSome := by
  unfold amountInRegexOk parseDecimal
  rcases s.splitOn "." with _ | ⟨a, _ | ⟨b, _ | ⟨c, t⟩⟩⟩
  · rfl
  · cases hc : (!a.isEmpty && a.all Char.isDigit) <;> simp [hc]
  · cases hc : (!a.isEmpty && a.all Char.isDigit && !b.isEmpty &&
      b.all Char.isDigit) <;> simp [hc]
  · rfl

/-- C7: a submission with an empty tokenIn or tokenOut, an amountIn that
does not parse as a non-negative decimal number, or a present orderType
other than market is rejected by executeOrder with a validation error, and
neither an order row nor a queue job is created: the state is returned
unchanged. -/
theorem c7_validation_rejects (st : AppState) (req : OrderRequestIn)
    (newId : String) (now : Nat)
    (h : req.tokenIn = "" ∨ req.tokenOut = "" ∨ parseDecimal req.amountIn = none
       ∨ ∃ t, req.orderType = some t ∧ t ≠ "market") :
    executeOrder st req newId now = (st, .validationError) := by
  have hv : validOrderRequest req = false := by
    rcases h with h | h | h | ⟨t, ht, hne⟩
    · simp [validOrderRequest, h]
    · simp [validOrderRequest, h]
    · simp [validOrderRequest, amountInRegexOk_eq_isSome, h]
    · simp [validOrderRequest, ht, hne]
  simp [executeOrder, hv]

/-- C7 witness: a request with an empty tokenIn is rejected and the state
is unchanged. -/
theorem c7_validation_rejects_witness :
    executeOrder { db := [], queue := [] }
        { tokenIn := "", tokenOut := "USDC", amountIn := "100",
          orderType := none } "id-1" 3 =
      ({ db := [], queue := [] }, .validationError) :=
  c7_validation_rejects _ _ _ _ (Or.inl rfl)

theorem mapGet_mapDelete {α : Type} (m : List (String × α)) (k k' : String) :
    mapGet (mapDelete m k) k' = if k' = k then none else mapGet m k' := by
  induction m with
  | nil => simp [mapGet, mapDelete]
  | cons p l ih =>
    by_cases hpk : p.1 = k <;> by_cases hpk' : p.1 = k' <;>
      simp_all [mapGet, mapDelete, List.filter_cons, List.find?_cons]

theorem mapGet_replace_self {α : Type} (l : List (String × α)) (k : String)
    (v : α) (hany : l.any (fun p => p.1 == k) = true) :
    mapGet (l.map (fun p => if p.1 == k then (k, v) else p)) k = some v := by
  induction l with
  | nil => simp at hany
  | cons p l ih =>
    cases hpk : (p.1 == k) with
    | true =>
      have hp1 : p.1 = k := eq_of_beq hpk
      simp [mapGet, List.find?_cons, hp1, -List.find?_map]
    | false =>
      have hp1 : ¬ p.1 = k := by simpa using hpk
      simp only [List.any_cons, hpk, Bool.false_or] at hany
      simpa [mapGet, List.find?_cons, hp1, hpk, -List.find?_map] using ih hany

theorem mapGet_replace_other {α : Type} (l : List (String × α))
    (k k' : String) (v : α) (h : k' ≠ k) :
    mapGet (l.map (fun p => if p.1 == k then (k, v) else p)) k' =
      mapGet l k' := by
  have hkk' : (k == k') = false := by
    have hne : ¬ k = k' := fun he => h he.symm
    simp [hne]
  induction l with
  | nil => rfl
  | cons p l ih =>
    cases hpk : (p.1 == k) with
    | true =>
      have hp1 : p.1 = k := eq_of_beq hpk
      have h1 : (p.1 == k') = false := by rw [hp1]; exact hkk'
      simpa [mapGet, List.find?_cons, hp1, h1, hkk', -List.find?_map] using ih
    | false =>
      have hp1 : ¬ p.1 = k := by simpa using hpk
      cases hpk' : (p.1 == k') with
      | true =>
        simp [mapGet, List.find?_cons, hp1, hpk', -List.find?_map]
      | false =>
        simpa [mapGet, List.find?_cons, hp1, hpk', -List.find?_map] using ih

theorem mapGet_mapSet_self {α : Type} (m : List (String × α)) (k : String)
    (v : α) : mapGet (mapSet m k v) k = some v := by
  unfold mapSet
  by_cases hany : m.any (fun p => p.1 == k) = true
  · rw [if_pos hany]
    exact mapGet_replace_self m k v hany
  · rw [if_neg hany]
    have hnone : m.find? (fun p => p.1 == k) = none := by
      rw [List.find?_eq_none]
      intro x hx hpx
      exact hany (List.any_eq_true.mpr ⟨x, hx, hpx⟩)
    unfold mapGet
    rw [find?_append_none _ _ hnone]
    simp [List.find?_cons]

theorem mapGet_mapSet_other {α : Type} (m : List (String × α))
    (k k' : String) (v : α) (h : k' ≠ k) :
    mapGet (mapSet m k v) k' = mapGet m k' := by
  unfold mapSet
  by_cases hany : m.any (fun p => p.1 == k) = true
  · rw [if_pos hany]
    exact mapGet_replace_other m k k' v h
  · rw [if_neg hany]
    unfold mapGet
    rw [List.find?_append]
    have hne : ¬ k = k' := fun he => h he.symm
    have h2 : List.find? (fun p => p.1 == k') [(k, v)] = none := by
      simp [List.find?_cons, hne]
    rw [h2]
    simp

theorem unregister_clients_self (m : WebSocketManager) (cid : String) :
    mapGet (unregisterClient m cid).clients cid = none := by
  simp [unregisterClient, mapGet_mapDelete]

theorem unregister_clients_other (m : WebSocketManager) (cid cid' : String)
    (h : cid' ≠ cid) :
    mapGet (unregisterClient m cid).clients cid' = mapGet m.clients cid' := by
  simp [unregisterClient, mapGet_mapDelete, h]

theorem sendTo_clients_other (msg : WsMessage) (m : WebSocketManager)
    (cid cid' : String) (h : cid' ≠ cid) :
    mapGet (sendTo msg m cid).clients cid' = mapGet m.clients cid' := by
  unfold sendTo
  cases hg : mapGet m.clients cid with
  | none => exact unregister_clients_other m cid cid' h
  | some conn =>
    by_cases hopen : conn.isOpen <;> by_cases hfail : conn.sendFails <;>
      simp [hopen, hfail, unregister_clients_other m cid cid' h,
        mapGet_mapSet_other _ _ _ _ h]

theorem sendTo_clients_none (msg : WsMessage) (m : WebSocketManager)
    (cid : String) (h : mapGet m.clients cid = none) :
    mapGet (sendTo msg m cid).clients cid = none := by
  unfold sendTo
  rw [h]
  exact unregister_clients_self m cid

theorem foldl_sendTo_not_mem (msg : WsMessage) (l : List String)
    (m : WebSocketManager) (cid : String) (h : cid ∉ l) :
    mapGet (l.foldl (sendTo msg) m).clients cid = mapGet m.clients cid := by
  induction l generalizing m with
  | nil => rfl
  | cons x xs ih =>
    have hx : cid ≠ x := fun he => h (he ▸ List.mem_cons_self x xs)
    have hxs : cid ∉ xs := fun he => h (List.mem_cons_of_mem x he)
    rw [List.foldl_cons, ih _ hxs, sendTo_clients_other msg m x cid hx]

theorem foldl_sendTo_none (msg : WsMessage) (l : List String)
    (m : WebSocketManager) (cid : String)
    (h : mapGet m.clients cid = none) :
    mapGet (l.foldl (sendTo msg) m).clients cid = none := by
  induction l generalizing m with
  | nil => exact h
  | cons x xs ih =>
    rw [List.foldl_cons]
    apply ih
    by_cases hx : cid = x
    · subst hx
      exact sendTo_clients_none msg m cid h
    · rw [sendTo_clients_other msg m x cid hx]
      exact h

theorem setDelete_not_mem (s : List String) (x : String) :
    x ∉ setDelete s x := by
  simp [setDelete]

theorem setDelete_idem (s : List String) (x : String) :
    setDelete (setDelete s x) x = setDelete s x := by
  simp [setDelete, List.filter_filter, Bool.and_self]

theorem unregister_orderClients_idem (cid : String)
    (L : List (String × List String)) :
    (((L.map (fun p => (p.1, setDelete p.2 cid))).filter
        (fun p => !p.2.isEmpty)).map (fun p => (p.1, setDelete p.2 cid))).filter
      (fun p => !p.2.isEmpty) =
    (L.map (fun p => (p.1, setDelete p.2 cid))).filter (fun p => !p.2.isEmpty) := by
  induction L with
  | nil => rfl
  | cons p L ih =>
    cases hpos : (!(setDelete p.2 cid).isEmpty) with
    | false => simpa [List.map_cons, List.filter_cons, hpos] using ih
    | true => simpa [List.map_cons, List.filter_cons, hpos, setDelete_idem] using ih

/-- C9: unregisterClient removes the connection from the client registry and
from every order's subscriber set, and it is idempotent: a second
unregisterClient with the same connectionId leaves the hub state exactly as
after the first. -/
theorem c9_unregister_removes_idempotent (m : WebSocketManager)
    (cid : String) :
    mapGet (unregisterClient m cid).clients cid = none
  ∧ (∀ p ∈ (unregisterClient m cid).orderClients, cid ∉ p.2)
  ∧ unregisterClient (unregisterClient m cid) cid = unregisterClient m cid := by
  refine ⟨unregister_clients_self m cid, ?_, ?_⟩
  · intro p hp
    simp only [unregisterClient, List.mem_filter, List.mem_map] at hp
    obtain ⟨⟨q, hq, rfl⟩, hpos⟩ := hp
    exact setDelete_not_mem q.2 cid
  · simp only [unregisterClient]
    congr 1
    · simp [mapDelete, List.filter_filter, Bool.and_self]
    · exact unregister_orderClients_idem cid m.orderClients

/-- C8: a broadcast delivers the status_update message to exactly the
registered, currently subscribed, open connections: an unsubscribed client's
registry entry is untouched, a client unregistered before the broadcast
stays unregistered and receives nothing, every subscribed open connection
whose send succeeds gets exactly the one message appended regardless of
other connections' failures, and every subscribed connection found closed
or whose send throws is unregistered as a side effect. -/
theorem c8_broadcast_delivery (m : WebSocketManager) (order : OrderState)
    (now : Nat) (cid : String)
    (hnodup : (subscribersOf m order.id).Nodup) :
    (cid ∉ subscribersOf m order.id →
      mapGet (broadcastOrderUpdate m order now).clients cid =
        mapGet m.clients cid)
  ∧ (mapGet m.clients cid = none →
      mapGet (broadcastOrderUpdate m order now).clients cid = none)
  ∧ (∀ conn : Conn, cid ∈ subscribersOf m order.id →
      mapGet m.clients cid = some conn → conn.isOpen = true →
      conn.sendFails = false →
      mapGet (broadcastOrderUpdate m order now).clients cid =
        some { conn with inbox := conn.inbox ++ [mkStatusMessage order now] })
  ∧ (∀ conn : Conn, cid ∈ subscribersOf m order.id →
      mapGet m.clients cid = some conn →
      (conn.isOpen = false ∨ conn.sendFails = true) →
      mapGet (broadcastOrderUpdate m order now).clients cid = none) := by
  refine ⟨?_, ?_, ?_, ?_⟩
  · intro hmem
    exact foldl_sendTo_not_mem _ _ _ _ hmem
  · intro hnone
    exact foldl_sendTo_none _ _ _ _ hnone
  · intro conn hmem hget hopen hfail
    obtain ⟨l1, l2, hsplit⟩ := List.append_of_mem hmem
    unfold broadcastOrderUpdate
    rw [hsplit] at hnodup ⊢
    rw [List.nodup_append] at hnodup
    have hcid1 : cid ∉ l1 := fun hc => hnodup.2.2 hc (List.mem_cons_self cid l2)
    have hcid2 : cid ∉ l2 := (List.nodup_cons.mp hnodup.2.1).1
    rw [List.foldl_append, List.foldl_cons]
    set M1 := l1.foldl (sendTo (mkStatusMessage order now)) m with hM1def
    have hM1 : mapGet M1.clients cid = some conn := by
      rw [hM1def, foldl_sendTo_not_mem _ _ _ _ hcid1]
      exact hget
    have hstep :
        mapGet (sendTo (mkStatusMessage order now) M1 cid).clients cid =
        some { conn with inbox := conn.inbox ++ [mkStatusMessage order now] } := by
      unfold sendTo
      rw [hM1]
      simp [hopen, hfail, mapGet_mapSet_self]
    rw [foldl_sendTo_not_mem _ _ _ _ hcid2, hstep]
  · intro conn hmem hget hbad
    obtain ⟨l1, l2, hsplit⟩ := List.append_of_mem hmem
    unfold broadcastOrderUpdate
    rw [hsplit] at hnodup ⊢
    rw [List.nodup_append] at hnodup
    have hcid1 : cid ∉ l1 := fun hc => hnodup.2.2 hc (List.mem_cons_self cid l2)
    rw [List.foldl_append, List.foldl_cons]
    set M1 := l1.foldl (sendTo (mkStatusMessage order now)) m with hM1def
    have hM1 : mapGet M1.clients cid = some conn := by
      rw [hM1def, foldl_sendTo_not_mem _ _ _ _ hcid1]
      exact hget
    have hstep :
        mapGet (sendTo (mkStatusMessage order now) M1 cid).clients cid =
        none := by
      unfold sendTo
      rw [hM1]
      rcases hbad with hb | hb
      · simp [hb, unregister_clients_self]
      · cases hco : conn.isOpen <;> simp [hco, hb, unregister_clients_self]
    exact foldl_sendTo_none _ _ _ _ hstep

/-- An open connection whose sends succeed, with an empty inbox. -/
def goodConn : Conn := { isOpen := true, sendFails := false, inbox := [] }

/-- A hub with one registered client subscribed to the sample order. -/
def hubWithSubs : WebSocketManager :=
  { clients := [("c1", goodConn)], orderClients := [("order-1", ["c1"])] }

/-- C8 witness: the theorem applied to a one-subscriber hub delivers the
message to the subscriber. -/
theorem c8_broadcast_delivery_witness :
    mapGet (broadcastOrderUpdate hubWithSubs (orderWsView sampleRow) 7).clients
        "c1" =
      some { goodConn with
        inbox := goodConn.inbox ++ [mkStatusMessage (orderWsView sampleRow) 7] } :=
  (c8_broadcast_delivery hubWithSubs (orderWsView sampleRow) 7 "c1"
    (by decide)).2.2.1 goodConn (by decide) rfl rfl rfl

theorem applyStatusUpdate_id (o : OrderRow) (st : OrderStatus)
    (up : StatusUpdates) (now : Nat) :
    (applyStatusUpdate o st up now).id = o.id := rfl

theorem runAttempt_quote_error (o : OrderRow) (hub : WebSocketManager)
    (jd : OrderJobData) (e : String) (sw : Except String String) (t : Nat)
    (hid : o.id = jd.orderId) :
    runAttempt [o] hub jd { quote := .error e, swap := sw } t =
      (([applyStatusUpdate (applyStatusUpdate o .routing {} t) .failed
          { failureReason := some e } (t + 1)],
        broadcastOrderUpdate
          (broadcastOrderUpdate hub
            (orderWsView (applyStatusUpdate o .routing {} t)) t)
          (orderWsView (applyStatusUpdate (applyStatusUpdate o .routing {} t)
            .failed { failureReason := some e } (t + 1))) (t + 1)),
       .failedAttempt e) := by
  simp [runAttempt, workerCatch, updateOrderStatus_found, applyStatusUpdate_id,
    hid]

theorem runAttempt_swap_error (o : OrderRow) (hub : WebSocketManager)
    (jd : OrderJobData) (q : DexQuote) (e : String) (t : Nat)
    (hid : o.id = jd.orderId) :
    runAttempt [o] hub jd { quote := .ok q, swap := .error e } t =
      (([applyStatusUpdate
          (applyStatusUpdate
            (applyStatusUpdate (applyStatusUpdate o .routing {} t) .building
              { dexUsed := some q.dex, executedPrice := some q.price } (t + 1))
            .submitted
            { dexUsed := some q.dex, executedPrice := some q.price } (t + 2))
          .failed { failureReason := some e } (t + 3)],
        broadcastOrderUpdate
          (broadcastOrderUpdate
            (broadcastOrderUpdate
              (broadcastOrderUpdate hub
                (orderWsView (applyStatusUpdate o .routing {} t)) t)
              (orderWsView
                (applyStatusUpdate (applyStatusUpdate o .routing {} t) .building
                  { dexUsed := some q.dex, executedPrice := some q.price }
                  (t + 1))) (t + 1))
            (orderWsView
              (applyStatusUpdate
                (applyStatusUpdate (applyStatusUpdate o .routing {} t) .building
                  { dexUsed := some q.dex, executedPrice := some q.price }
                  (t + 1))
                .submitted
                { dexUsed := some q.dex, executedPrice := some q.price }
                (t + 2))) (t + 2))
          (orderWsView
            (applyStatusUpdate
              (applyStatusUpdate
                (applyStatusUpdate (applyStatusUpdate o .routing {} t) .building
                  { dexUsed := some q.dex, executedPrice := some q.price }
                  (t + 1))
                .submitted
                { dexUsed := some q.dex, executedPrice := some q.price }
                (t + 2))
              .failed { failureReason := some e } (t + 3))) (t + 3)),
       .failedAttempt e) := by
  simp [runAttempt, workerCatch, updateOrderStatus_found, applyStatusUpdate_id,
    hid]

theorem runAttempt_fail (o : OrderRow) (hub : WebSocketManager)
    (jd : OrderJobData) (env : WorkerEnv) (t : Nat)
    (hid : o.id = jd.orderId) (hf : envFails env = true)
    (hm : envMsgsOk env = true) :
    ∃ o' hub' msg,
      runAttempt [o] hub jd env t = (([o'], hub'), .failedAttempt msg)
      ∧ o'.id = jd.orderId
      ∧ o'.status = .failed
      ∧ msg ≠ ""
      ∧ o'.failureReason = some msg
      ∧ ∃ ts, (parseStatusHistory o'.statusHistory).getLast? =
          some { status := .failed, timestamp := ts,
                 metadata := { failureReason := some msg } } := by
  cases hq : env.quote with
  | error e =>
    have hne : e ≠ "" := by
      intro he
      rw [he] at hq
      simp [envMsgsOk, hq] at hm
      exact absurd hm.1 (by decide)
    have henv : env = { quote := .error e, swap := env.swap } := by
      cases env
      simp_all
    refine ⟨applyStatusUpdate (applyStatusUpdate o .routing {} t) .failed
        { failureReason := some e } (t + 1),
      broadcastOrderUpdate
        (broadcastOrderUpdate hub
          (orderWsView (applyStatusUpdate o .routing {} t)) t)
        (orderWsView (applyStatusUpdate (applyStatusUpdate o .routing {} t)
          .failed { failureReason := some e } (t + 1))) (t + 1),
      e, ?_, hid, rfl, hne, rfl, t + 1, ?_⟩
    · rw [henv]
      exact runAttempt_quote_error o hub jd e env.swap t hid
    · rw [parseStatusHistory_applyStatusUpdate, List.getLast?_concat]
  | ok q =>
    cases hs : env.swap with
    | ok tx =>
      exfalso
      simp [envFails, hq, hs] at hf
    | error e =>
      have hne : e ≠ "" := by
        intro he
        rw [he] at hs
        simp [envMsgsOk, hq, hs] at hm
        exact absurd hm (by decide)
      have henv : env = { quote := .ok q, swap := .error e } := by
        cases env
        simp_all
      refine ⟨applyStatusUpdate
          (applyStatusUpdate
            (applyStatusUpdate (applyStatusUpdate o .routing {} t) .building
              { dexUsed := some q.dex, executedPrice := some q.price } (t + 1))
            .submitted
            { dexUsed := some q.dex, executedPrice := some q.price } (t + 2))
          .failed { failureReason := some e } (t + 3),
        broadcastOrderUpdate
          (broadcastOrderUpdate
            (broadcastOrderUpdate
              (broadcastOrderUpdate hub
                (orderWsView (applyStatusUpdate o .routing {} t)) t)
              (orderWsView
                (applyStatusUpdate (applyStatusUpdate o .routing {} t) .building
                  { dexUsed := some q.dex, executedPrice := some q.price }
                  (t + 1))) (t + 1))
            (orderWsView
              (applyStatusUpdate
                (applyStatusUpdate (applyStatusUpdate o .routing {} t) .building
                  { dexUsed := some q.dex, executedPrice := some q.price }
                  (t + 1))
                .submitted
                { dexUsed := some q.dex, executedPrice := some q.price }
                (t + 2))) (t + 2))
          (orderWsView
            (applyStatusUpdate
              (applyStatusUpdate
                (applyStatusUpdate (applyStatusUpdate o .routing {} t) .building
                  { dexUsed := some q.dex, executedPrice := some q.price }
                  (t + 1))
                .submitted
                { dexUsed := some q.dex, executedPrice := some q.price }
                (t + 2))
              .failed { failureReason := some e } (t + 3))) (t + 3),
        e, ?_, hid, rfl, hne, rfl, t + 3, ?_⟩
      · rw [henv]
        exact runAttempt_swap_error o hub jd q e t hid
      · rw [parseStatusHistory_applyStatusUpdate, List.getLast?_concat]

theorem runAttempts_all_fail (jd : OrderJobData) (envs : List WorkerEnv) :
    ∀ (o : OrderRow) (hub : WebSocketManager) (t : Nat),
    o.id = jd.orderId → envs ≠ [] →
    (∀ env ∈ envs, envFails env = true) →
    (∀ env ∈ envs, envMsgsOk env = true) →
    ∃ o' hub' msg,
      runAttempts [o] hub jd envs t = ([o'], hub')
      ∧ o'.id = jd.orderId
      ∧ o'.status = .failed
      ∧ msg ≠ ""
      ∧ o'.failureReason = some msg
      ∧ ∃ ts, (parseStatusHistory o'.statusHistory).getLast? =
          some { status := .failed, timestamp := ts,
                 metadata := { failureReason := some msg } } := by
  induction envs with
  | nil =>
    intro _ _ _ _ hne _ _
    exact absurd rfl hne
  | cons env rest ih =>
    intro o hub t hid _ hall hmsgs
    obtain ⟨o', hub', msg, heq, hid', hst, hne', hfr, ts, hlast⟩ :=
      runAttempt_fail o hub jd env t hid (hall env (List.mem_cons_self _ _))
        (hmsgs env (List.mem_cons_self _ _))
    cases rest with
    | nil =>
      refine ⟨o', hub', msg, ?_, hid', hst, hne', hfr, ts, hlast⟩
      simp [runAttempts, heq]
    | cons env2 rest2 =>
      obtain ⟨o'', hub'', msg', heq', hid'', hst', hne'', hfr', ts', hlast'⟩ :=
        ih o' hub' (t + 5) hid' (by simp)
          (fun e he => hall e (List.mem_cons_of_mem _ he))
          (fun e he => hmsgs e (List.mem_cons_of_mem _ he))
      refine ⟨o'', hub'', msg', ?_, hid'', hst', hne'', hfr', ts', hlast'⟩
      rw [runAttempts, heq]
      exact heq'

/-- C4 counterexample: a lifecycle that completes on the second attempt
after a first failed attempt reaches confirmed, but its statusHistory is
pending, routing, failed, routing, building, submitted, confirmed - not the
claimed exact five-entry sequence, because a retry restarts the worker loop
and appends to the existing history. -/
theorem c4_counterexample :
    ((runAttempts [createOrderRow "order-1" "SOL" "USDC" "100" 0] emptyHub
        { orderId := "order-1", tokenIn := "SOL", tokenOut := "USDC",
          amountIn := "100", wsClientId := none }
        [{ quote := .error "no route", swap := .ok "0xtx" },
         { quote := .ok raydium105, swap := .ok "0xtx" }] 1).1.map
      (fun o => ((parseStatusHistory o.statusHistory).map StatusEntry.status,
        o.status)))
    = [([.pending, .routing, .failed, .routing, .building, .submitted,
        .confirmed], .confirmed)]
  ∧ [OrderStatus.pending, .routing, .failed, .routing, .building, .submitted,
      .confirmed] ≠
    [OrderStatus.pending, .routing, .building, .submitted, .confirmed] := by
  refine ⟨?_, by decide⟩
  rfl

/-- C4 (amended): an order confirmed on the first worker attempt has
statusHistory statuses exactly pending, routing, building, submitted,
confirmed in that order with non-decreasing timestamps; a lifecycle
completed on a retry instead appends the fresh routing-to-confirmed run
after the earlier attempt's entries (including its failed entry), so its
history is strictly longer than the canonical five entries. -/
theorem c4_first_attempt_history (orderId tokenIn tokenOut amountIn : String)
    (hub : WebSocketManager) (q : DexQuote) (tx : String) (t0 t : Nat)
    (ht : t0 ≤ t) :
    ((runAttempts [createOrderRow orderId tokenIn tokenOut amountIn t0] hub
        { orderId := orderId, tokenIn := tokenIn, tokenOut := tokenOut,
          amountIn := amountIn, wsClientId := none }
        [{ quote := .ok q, swap := .ok tx }] t).1.map
      (fun o => (parseStatusHistory o.statusHistory).map StatusEntry.status))
      = [[.pending, .routing, .building, .submitted, .confirmed]]
  ∧ ((runAttempts [createOrderRow orderId tokenIn tokenOut amountIn t0] hub
        { orderId := orderId, tokenIn := tokenIn, tokenOut := tokenOut,
          amountIn := amountIn, wsClientId := none }
        [{ quote := .ok q, swap := .ok tx }] t).1.map
      (fun o => (parseStatusHistory o.statusHistory).map StatusEntry.timestamp))
      = [[t0, t, t + 1, t + 2, t + 3]]
  ∧ List.Chain' (· ≤ ·) [t0, t, t + 1, t + 2, t + 3]
  ∧ ((runAttempts [createOrderRow orderId tokenIn tokenOut amountIn t0] hub
        { orderId := orderId, tokenIn := tokenIn, tokenOut := tokenOut,
          amountIn := amountIn, wsClientId := none }
        [{ quote := .ok q, swap := .ok tx }] t).1.map OrderRow.status)
      = [.confirmed] := by
  refine ⟨?_, ?_, ?_, ?_⟩ <;>
    simp [runAttempts, runAttempt, updateOrderStatus, dbFind, dbUpdate,
      applyStatusUpdate, parseStatusHistory, createOrderRow,
      initialStatusHistory, List.find?_cons, List.chain'_cons]
  omega

/-- C4 witness: the amended theorem applied to a concrete first-attempt
success. -/
theorem c4_first_attempt_history_witness :
    ((runAttempts [createOrderRow "order-1" "SOL" "USDC" "100" 0] emptyHub
        { orderId := "order-1", tokenIn := "SOL", tokenOut := "USDC",
          amountIn := "100", wsClientId := none }
        [{ quote := .ok raydium105, swap := .ok "0xtx" }] 1).1.map
      (fun o => (parseStatusHistory o.statusHistory).map StatusEntry.status))
      = [[.pending, .routing, .building, .submitted, .confirmed]] :=
  (c4_first_attempt_history "order-1" "SOL" "USDC" "100" emptyHub raydium105
    "0xtx" 0 1 (by decide)).1

/-- C5 counterexample: after a failed first attempt, the successful retry
leaves failureReason populated while the order's status is confirmed, so
failureReason is not populated only on failed orders. -/
theorem c5_counterexample :
    ((runAttempts [createOrderRow "order-1" "SOL" "USDC" "100" 0] emptyHub
        { orderId := "order-1", tokenIn := "SOL", tokenOut := "USDC",
          amountIn := "100", wsClientId := none }
        [{ quote := .error "no route", swap := .ok "0xtx" },
         { quote := .ok raydium105, swap := .ok "0xtx" }] 1).1.map
      (fun o => (o.status, o.failureReason)))
    = [(.confirmed, some "no route")]
  ∧ some "no route" ≠ (none : Option String) := by
  refine ⟨?_, by decide⟩
  rfl

/-- C5 (amended): failureReason is populated when an attempt fails and is
never cleared by later transitions, so it may persist on non-failed orders
after a retry; for every lifecycle whose attempts all fail, the final order
is failed with a non-empty failureReason and the last history entry is the
failed transition carrying that reason in its metadata. -/
theorem c5_failed_lifecycle (orderId tokenIn tokenOut amountIn : String)
    (hub : WebSocketManager) (envs : List WorkerEnv) (t0 t : Nat)
    (hne : envs ≠ [])
    (hall : ∀ env ∈ envs, envFails env = true)
    (hmsgs : ∀ env ∈ envs, envMsgsOk env = true) :
    ∃ o' hub' msg,
      runAttempts [createOrderRow orderId tokenIn tokenOut amountIn t0] hub
        { orderId := orderId, tokenIn := tokenIn, tokenOut := tokenOut,
          amountIn := amountIn, wsClientId := none } envs t = ([o'], hub')
      ∧ o'.status = .failed
      ∧ msg ≠ ""
      ∧ o'.failureReason = some msg
      ∧ ∃ ts, (parseStatusHistory o'.statusHistory).getLast? =
          some { status := .failed, timestamp := ts,
                 metadata := { failureReason := some msg } } := by
  obtain ⟨o', hub', msg, heq, _, hst, hnem, hfr, ts, hlast⟩ :=
    runAttempts_all_fail
      { orderId := orderId, tokenIn := tokenIn, tokenOut := tokenOut,
        amountIn := amountIn, wsClientId := none } envs
      (createOrderRow orderId tokenIn tokenOut amountIn t0) hub t rfl hne
      hall hmsgs
  exact ⟨o', hub', msg, heq, hst, hnem, hfr, ts, hlast⟩

/-- C5 witness: the amended theorem applied to a single failing attempt. -/
theorem c5_failed_lifecycle_witness :
    ∃ o' hub' msg,
      runAttempts [createOrderRow "order-1" "SOL" "USDC" "100" 0] emptyHub
        { orderId := "order-1", tokenIn := "SOL", tokenOut := "USDC",
          amountIn := "100", wsClientId := none }
        [{ quote := .error "no route", swap := .ok "0xtx" }] 1 = ([o'], hub')
      ∧ o'.status = .failed
      ∧ msg ≠ ""
      ∧ o'.failureReason = some msg
      ∧ ∃ ts, (parseStatusHistory o'.statusHistory).getLast? =
          some { status := .failed, timestamp := ts,
                 metadata := { failureReason := some msg } } :=
  c5_failed_lifecycle "order-1" "SOL" "USDC" "100" emptyHub
    [{ quote := .error "no route", swap := .ok "0xtx" }] 0 1 (by decide)
    (by decide) (by decide)

end EternaBackend
